import Mathlib

/-!
Verification development for the amazon-recommender repository.

The repository ships the three-stage recommendation pipeline
(Recall → Ranking → Re-ranking), a matrix-factorization trainer and an
event-ingestion writer.  The Python sources of those components
(`reranking_service.py`, `ranking_service.py`, `recall_service.py`,
`train_cf_final.py`, `redis_context_service.py`) are not present in the
checkout; only their documentation is (`src/unnamed/part_001` — the
re-ranking service README, `src/unnamed/part_011` — the system technical
document, `src/backend/app/web/README_EVENT_INGESTION.md`).  The
definitions below therefore embed the components as the specification and
those in-repository documents describe them; every such definition says so
in its doc comment.

Scores are treated as real numbers.  All re-ranking and ranking
definitions are generic over a `LinearOrderedField` so that concrete
witnesses can be evaluated over `ℚ` while the logistic link of the
ranking model is stated over `ℝ`.
-/

/-- Rule-trail name appended by the short-term intent boost rule. -/
def intentRuleName : String := "intent_boost"

/-- Rule-trail name appended by the recent-items penalty rule. -/
def recentRuleName : String := "recent_penalty"

/-- Rule-trail name appended by the diversity penalty rule. -/
def diversityRuleName : String := "diversity_penalty"

/-- Rule-trail name appended by the popularity floor rule. -/
def floorRuleName : String := "popularity_floor"

/-- Modelled from the spec: the per-user context snapshot read from the
Context Store (Redis): the ordered list of recently touched item ids
(most recent first) and the category → interaction-count mapping.
`reranking_service.py` is absent from the checkout; the shape follows
spec §3 "Context Snapshot" and the README `src/unnamed/part_001`. -/
structure Context where
  recent_items : List String
  recent_categories : List (String × Nat)
deriving DecidableEq, Repr

/-- The empty context: what an unreachable or expired Context Store
degrades to. -/
def emptyContext : Context := ⟨[], []⟩

/-- First-match lookup in the category → count mapping. -/
def lookupCount (c : String) : List (String × Nat) → Option Nat
  | [] => none
  | p :: rest => if p.1 = c then some p.2 else lookupCount c rest

/-- Modelled from the spec: the output record of the Ranking Engine and
input record of the Re-ranking Engine (`RankedItem` dataclass described in
`src/unnamed/part_001`): item id, model score, 1-based rank position,
optional category and optional rating count. -/
structure RankedItem (α : Type) where
  item_id : String
  rank_score : α
  rank_position : Nat
  category : Option String
  rating_number : Option Nat
deriving DecidableEq, Repr

/-- Modelled from the spec: the output record of the Re-ranking Engine
(`ReRankedItem` dataclass described in `src/unnamed/part_001`): the ranked
fields plus the adjusted score and the ordered trail of applied rule
names. -/
structure ReRankedItem (α : Type) where
  item_id : String
  rank_score : α
  adjusted_score : α
  rank_position : Nat
  applied_rules : List String
  category : Option String
  rating_number : Option Nat
deriving DecidableEq, Repr

/-- Modelled from the spec: re-ranking configuration
(`src/unnamed/part_001` Configuration section): `top_n` defaults to 20 and
the popularity-floor threshold `min_rating_threshold` defaults to 5.  The
diversity share threshold (default 0.4) is modelled at its default. -/
structure ReRankConfig where
  top_n : Nat := 20
  min_rating_threshold : Nat := 5
deriving DecidableEq, Repr

/-- The default re-ranking configuration. -/
def defaultConfig : ReRankConfig := {}

/-- Lift a ranked item into a re-ranked item with the adjusted score
initialized to the rank score and an empty rule trail. -/
def initItem {α : Type} (x : RankedItem α) : ReRankedItem α :=
  ⟨x.item_id, x.rank_score, x.rank_score, x.rank_position, [], x.category, x.rating_number⟩

/-- Multiply the adjusted score by a factor and append the rule name to
the explainability trail — the single primitive every re-ranking rule
uses. -/
def scaleItem {α : Type} [LinearOrderedField α] (f : α) (name : String)
    (y : ReRankedItem α) : ReRankedItem α :=
  { y with adjusted_score := y.adjusted_score * f, applied_rules := y.applied_rules ++ [name] }

/-- Modelled from the spec: Rule 1, short-term intent boost (spec §4.4,
`src/unnamed/part_001` Rule 1): if the item's category appears in the
context's category-count map with count `n`, multiply the score by
`1 + min 0.2 (0.05 * n)`. -/
def applyIntent {α : Type} [LinearOrderedField α] (ctx : Context)
    (y : ReRankedItem α) : ReRankedItem α :=
  match y.category with
  | none => y
  | some c =>
    match lookupCount c ctx.recent_categories with
    | none => y
    | some n => scaleItem (1 + min (1 / 5 : α) ((n : α) / 20)) intentRuleName y

/-- Modelled from the spec: Rule 2, recent-items penalty (spec §4.4,
`src/unnamed/part_001` Rule 2): if the item id appears in the context's
recent-items list, multiply the score by 0.7. -/
def applyRecent {α : Type} [LinearOrderedField α] (ctx : Context)
    (y : ReRankedItem α) : ReRankedItem α :=
  if y.item_id ∈ ctx.recent_items then scaleItem ((7 : α) / 10) recentRuleName y else y

/-- Rules 1 and 2 applied in order to one item. -/
def adjustItem {α : Type} [LinearOrderedField α] (ctx : Context)
    (x : RankedItem α) : ReRankedItem α :=
  applyRecent ctx (applyIntent ctx (initItem x))

/-- The boost/penalty stage: rules 1 and 2 applied in order to every
item. -/
def adjustStage {α : Type} [LinearOrderedField α] (ctx : Context)
    (l : List (RankedItem α)) : List (ReRankedItem α) :=
  l.map (adjustItem ctx)

/-- Lexicographic sort relation: primary key `f` descending, secondary
key `g` ascending — the "sort by score, break ties by a stable secondary
key" pattern both the ranking and the re-ranking sorts use. -/
def keyLE {A K B : Type} [LinearOrder K] [LinearOrder B] (f : A → K) (g : A → B)
    (x y : A) : Prop :=
  f y < f x ∨ (f x = f y ∧ g x ≤ g y)

instance {A K B : Type} [LinearOrder K] [LinearOrder B] (f : A → K) (g : A → B) :
    DecidableRel (keyLE f g) := fun x y =>
  inferInstanceAs (Decidable (f y < f x ∨ (f x = f y ∧ g x ≤ g y)))

instance {A K B : Type} [LinearOrder K] [LinearOrder B] (f : A → K) (g : A → B) :
    IsTrans A (keyLE f g) := by
  constructor
  intro a b c hab hbc
  rcases hab with h1 | ⟨h1, h2⟩ <;> rcases hbc with h3 | ⟨h3, h4⟩
  · exact Or.inl (h3.trans h1)
  · exact Or.inl (h3 ▸ h1)
  · exact Or.inl (h1 ▸ h3)
  · exact Or.inr ⟨h1.trans h3, h2.trans h4⟩

instance {A K B : Type} [LinearOrder K] [LinearOrder B] (f : A → K) (g : A → B) :
    IsTotal A (keyLE f g) := by
  constructor
  intro a b
  rcases lt_trichotomy (f a) (f b) with h | h | h
  · exact Or.inr (Or.inl h)
  · rcases le_total (g a) (g b) with h2 | h2
    · exact Or.inl (Or.inr ⟨h, h2⟩)
    · exact Or.inr (Or.inr ⟨h.symm, h2⟩)
  · exact Or.inl (Or.inl h)

/-- The re-ranking sort relation: adjusted score descending, ties broken
by the original rank position (spec §4.4 final step). -/
def rerankLE {α : Type} [LinearOrderedField α] :
    ReRankedItem α → ReRankedItem α → Prop :=
  keyLE (fun y => y.adjusted_score) (fun y => y.rank_position)

instance {α : Type} [LinearOrderedField α] :
    DecidableRel (rerankLE : ReRankedItem α → ReRankedItem α → Prop) :=
  fun x y =>
    inferInstanceAs
      (Decidable (keyLE (fun y : ReRankedItem α => y.adjusted_score) (fun y => y.rank_position) x y))

instance {α : Type} [LinearOrderedField α] : IsTrans (ReRankedItem α) rerankLE :=
  inferInstanceAs
    (IsTrans _ (keyLE (fun y : ReRankedItem α => y.adjusted_score) (fun y => y.rank_position)))

instance {α : Type} [LinearOrderedField α] : IsTotal (ReRankedItem α) rerankLE :=
  inferInstanceAs
    (IsTotal _ (keyLE (fun y : ReRankedItem α => y.adjusted_score) (fun y => y.rank_position)))

/-- Sort a list of re-ranked items by adjusted score descending, ties by
original rank position. -/
def sortAdjusted {α : Type} [LinearOrderedField α]
    (l : List (ReRankedItem α)) : List (ReRankedItem α) :=
  List.insertionSort rerankLE l

/-- Number of items of category `c` in a list of re-ranked items. -/
def catCount {α : Type} (c : String) (l : List (ReRankedItem α)) : Nat :=
  l.countP (fun y => decide (y.category = some c))

/-- Whether an item's category exceeds a 40% share of the window `w`
(count / length > 2/5, i.e. `5 * count > 2 * length`). -/
def offendingB {α : Type} (w : List (ReRankedItem α)) (y : ReRankedItem α) : Bool :=
  match y.category with
  | none => false
  | some c => decide (2 * w.length < 5 * catCount c w)

/-- Modelled from the spec: Rule 3 per-item step, diversity penalty (spec
§4.4, `src/unnamed/part_001` Rule 3): an item whose category exceeds the
40% share of the window has its score multiplied by 0.85. -/
def divStep {α : Type} [LinearOrderedField α] (w : List (ReRankedItem α))
    (y : ReRankedItem α) : ReRankedItem α :=
  if offendingB w y then scaleItem ((17 : α) / 20) diversityRuleName y else y

/-- Modelled from the spec: Rule 3, diversity penalty over the current
top-N window: after boost/penalty the items are ordered by adjusted
score, the top-`n` window is inspected, and each window item of an
over-represented category (share above 40%) is penalized; items outside
the window pass through unchanged. -/
def applyDiversity {α : Type} [LinearOrderedField α] (n : Nat)
    (l : List (ReRankedItem α)) : List (ReRankedItem α) :=
  ((sortAdjusted l).take n).map (divStep ((sortAdjusted l).take n)) ++ (sortAdjusted l).drop n

/-- Modelled from the spec: Rule 4, popularity floor (spec §4.4,
`src/unnamed/part_001` Rule 4): an item whose `rating_number` is below
the threshold has its score multiplied by 0.9; items with no
`rating_number` pass through unchanged. -/
def applyFloor {α : Type} [LinearOrderedField α] (t : Nat)
    (y : ReRankedItem α) : ReRankedItem α :=
  match y.rating_number with
  | none => y
  | some r => if r < t then scaleItem ((9 : α) / 10) floorRuleName y else y

/-- The full rule pipeline of the Re-ranking Engine, before the final
sort-and-truncate: intent boost, recency penalty, diversity penalty over
the top-N window, popularity floor. -/
def ruleAdjust {α : Type} [LinearOrderedField α] (cfg : ReRankConfig) (ctx : Context)
    (l : List (RankedItem α)) : List (ReRankedItem α) :=
  (applyDiversity cfg.top_n (adjustStage ctx l)).map (applyFloor cfg.min_rating_threshold)

/-- Modelled from the spec: the Re-ranking Engine (spec §4.4,
`src/unnamed/part_001`): apply the four rules in order, then sort by
adjusted score (ties by original rank position) and truncate to
`top_n`. -/
def rerankItems {α : Type} [LinearOrderedField α] (cfg : ReRankConfig) (ctx : Context)
    (l : List (RankedItem α)) : List (ReRankedItem α) :=
  (sortAdjusted (ruleAdjust cfg ctx l)).take cfg.top_n

/-- Modelled from the spec: the Context Store read with its fallback
(`src/unnamed/part_001` note 1: on any Redis connection failure the
service falls back to the empty list/dict and never raises): `none`
models "store unreachable or no data" and degrades to the empty
context. -/
def rerankWithStore {α : Type} [LinearOrderedField α] (cfg : ReRankConfig)
    (store : Option Context) (l : List (RankedItem α)) : List (ReRankedItem α) :=
  rerankItems cfg (store.getD emptyContext) l

/-! ### Ranking Engine -/

/-- Modelled from the spec: the fixed, ordered feature schema of the
ranking model (spec §4.3): `mf_score, popularity_score, rating_score,
content_score`. -/
structure FeatureVec (α : Type) where
  mf : α
  pop : α
  rating : α
  content : α
deriving DecidableEq, Repr

/-- Modelled from the spec: the linear ranking model — one weight per
feature plus an intercept. -/
structure RankWeights (α : Type) where
  w_mf : α
  w_pop : α
  w_rating : α
  w_content : α
  bias : α
deriving DecidableEq, Repr

/-- The linear part `w · x + b` of the ranking model. -/
def linScore {α : Type} [LinearOrderedField α] (w : RankWeights α) (x : FeatureVec α) : α :=
  w.w_mf * x.mf + w.w_pop * x.pop + w.w_rating * x.rating + w.w_content * x.content + w.bias

/-- A ranking candidate: an item id together with its computed feature
vector. -/
structure Candidate (α : Type) where
  item_id : String
  feats : FeatureVec α
deriving DecidableEq, Repr

/-- The ranking sort relation: model score descending, ties broken by the
stable secondary key item id (spec §4.3).  Because the logistic link is
strictly monotone, ordering by the linear score `w · x + b` is the same
as ordering by the output probability. -/
def rankLE {α : Type} [LinearOrderedField α] (w : RankWeights α) :
    Candidate α → Candidate α → Prop :=
  keyLE (fun c => linScore w c.feats) (fun c => c.item_id)

instance {α : Type} [LinearOrderedField α] (w : RankWeights α) :
    DecidableRel (rankLE w) := fun x y =>
  inferInstanceAs
    (Decidable (keyLE (fun c : Candidate α => linScore w c.feats) (fun c => c.item_id) x y))

instance {α : Type} [LinearOrderedField α] (w : RankWeights α) :
    IsTrans (Candidate α) (rankLE w) :=
  inferInstanceAs
    (IsTrans _ (keyLE (fun c : Candidate α => linScore w c.feats) (fun c => c.item_id)))

instance {α : Type} [LinearOrderedField α] (w : RankWeights α) :
    IsTotal (Candidate α) (rankLE w) :=
  inferInstanceAs
    (IsTotal _ (keyLE (fun c : Candidate α => linScore w c.feats) (fun c => c.item_id)))

/-- Modelled from the spec: the ranking operation (spec §4.3,
`ranking_service.py` absent from the checkout): score every candidate
with the linear model and sort descending by model score with the
deterministic item-id tie-break. -/
def rankCandidates {α : Type} [LinearOrderedField α] (w : RankWeights α)
    (cands : List (Candidate α)) : List (Candidate α) :=
  List.insertionSort (rankLE w) cands

/-- The logistic link of the ranking model:
`1 / (1 + exp (-(w · x + b)))` (spec §4.3). -/
noncomputable def logistic (z : ℝ) : ℝ := 1 / (1 + Real.exp (-z))

/-! ### Recall Engine and the anonymous (cold-start) request path -/

/-- A row of the item catalog as the recall and ranking stages see it:
stable id, precomputed normalized popularity, optional average rating,
optional category, optional rating count and optional L2-normalized
embedding. -/
structure CatalogItem (α : Type) where
  item_id : String
  popularity : α
  avg_rating : Option α
  category : Option String
  rating_number : Option Nat
  embedding : Option (List α)
deriving DecidableEq, Repr

/-- Dot product of two vectors (extra coordinates of the longer vector
are ignored). -/
def dotL {α : Type} [LinearOrderedField α] (xs ys : List α) : α :=
  (xs.zip ys).foldl (fun acc p => acc + p.1 * p.2) 0

/-- Modelled from the spec: collaborative recall (spec §4.2).  If the
user is unknown — no row in the factor table, `userRow = none` — the
source yields the empty set, no error.  Otherwise every item of the
factor table `(item id, item factors, item bias)` is scored
`dot(user_factors, item_factors) + item_bias` and the top-k ids are
taken. -/
def collabRecall {α : Type} [LinearOrderedField α] (k : Nat) (userRow : Option (List α))
    (itemTable : List (String × List α × α)) : List String :=
  match userRow with
  | none => []
  | some u =>
    ((List.insertionSort
      (keyLE (fun p : String × List α × α => dotL u p.2.1 + p.2.2) (fun p => p.1))
      itemTable).take k).map (fun p => p.1)

/-- Cosine similarity of the L2-normalized item embeddings.  Because the
stored embeddings are L2-normalized (spec §3 Item), the cosine reduces to
the dot product. -/
def cosSim {α : Type} [LinearOrderedField α] (x y : List α) : α := dotL x y

/-- Component-wise mean of the reference-item embeddings — the content
recall query vector. -/
def avgVec {α : Type} [LinearOrderedField α] : List (List α) → List α
  | [] => []
  | v :: vs => (vs.foldl (fun acc w => List.zipWith (fun a b => a + b) acc w) v).map
      (fun a => a / ((vs.length + 1 : Nat) : α))

/-- Modelled from the spec: content recall (spec §4.2).  If the user has
no reference items the source yields the empty set; otherwise the
reference embeddings are averaged into a query vector, every item with an
embedding is scored by cosine similarity (items without an embedding
score 0) and the top-k ids are taken. -/
def contentRecall {α : Type} [LinearOrderedField α] (k : Nat) (refs : List (List α))
    (catalog : List (CatalogItem α)) : List String :=
  match refs with
  | [] => []
  | _ =>
    ((List.insertionSort
      (keyLE
        (fun it : CatalogItem α =>
          match it.embedding with
          | some e => cosSim (avgVec refs) e
          | none => 0)
        (fun it => it.item_id))
      catalog).take k).map (fun it => it.item_id)

/-- The popularity sort relation: precomputed popularity descending, ties
broken by item id. -/
def popLE {α : Type} [LinearOrderedField α] : CatalogItem α → CatalogItem α → Prop :=
  keyLE (fun it => it.popularity) (fun it => it.item_id)

instance {α : Type} [LinearOrderedField α] :
    DecidableRel (popLE : CatalogItem α → CatalogItem α → Prop) := fun x y =>
  inferInstanceAs
    (Decidable (keyLE (fun it : CatalogItem α => it.popularity) (fun it => it.item_id) x y))

instance {α : Type} [LinearOrderedField α] : IsTrans (CatalogItem α) popLE :=
  inferInstanceAs
    (IsTrans _ (keyLE (fun it : CatalogItem α => it.popularity) (fun it => it.item_id)))

instance {α : Type} [LinearOrderedField α] : IsTotal (CatalogItem α) popLE :=
  inferInstanceAs
    (IsTotal _ (keyLE (fun it : CatalogItem α => it.popularity) (fun it => it.item_id)))

/-- Modelled from the spec: popularity recall (spec §4.2) — the global
top-k items by precomputed popularity score, independent of the user; the
cold-start safety net. -/
def popularityRecall {α : Type} [LinearOrderedField α] (k : Nat)
    (catalog : List (CatalogItem α)) : List (CatalogItem α) :=
  (List.insertionSort popLE catalog).take k

/-- Remove candidates whose item id was already seen, keeping the first
occurrence — the recall merge's deduplication. -/
def dedupItemsAux {α : Type} (seen : List String) :
    List (CatalogItem α) → List (CatalogItem α)
  | [] => []
  | x :: rest =>
    if x.item_id ∈ seen then dedupItemsAux seen rest
    else x :: dedupItemsAux (x.item_id :: seen) rest

/-- Deduplicate a candidate list by item id, keeping first occurrences. -/
def dedupItems {α : Type} (l : List (CatalogItem α)) : List (CatalogItem α) :=
  dedupItemsAux [] l

/-- Modelled from the spec: the recall merge on the anonymous (cold
start) path (spec §4.2, §6): the collaborative and content sources yield
empty sets, so the deduplicated union of the three sources reduces to the
deduplicated popularity top-k (k = 50). -/
def anonCandidates {α : Type} [LinearOrderedField α]
    (catalog : List (CatalogItem α)) : List (CatalogItem α) :=
  dedupItems (popularityRecall 50 catalog)

/-- Clamped normalized rating feature `(avg_rating - 1) / 4`, 0 when the
average rating is missing (spec §4.3). -/
def ratingScore {α : Type} [LinearOrderedField α] (r : Option α) : α :=
  match r with
  | some v => max 0 (min 1 ((v - 1) / 4))
  | none => 0

/-- Modelled from the spec: the feature vector of a candidate for an
anonymous user (spec §4.3): `mf_score = 0` (unknown user),
`popularity_score` from the catalog, clamped `rating_score`,
`content_score = 0` (no reference items). -/
def anonFeatures {α : Type} [LinearOrderedField α] (it : CatalogItem α) : FeatureVec α :=
  ⟨0, it.popularity, ratingScore it.avg_rating, 0⟩

/-- The ranking sort relation on catalog items for an anonymous user:
model score descending, ties by item id. -/
def anonRankLE {α : Type} [LinearOrderedField α] (w : RankWeights α) :
    CatalogItem α → CatalogItem α → Prop :=
  keyLE (fun it => linScore w (anonFeatures it)) (fun it => it.item_id)

instance {α : Type} [LinearOrderedField α] (w : RankWeights α) :
    DecidableRel (anonRankLE w) := fun x y =>
  inferInstanceAs
    (Decidable
      (keyLE (fun it : CatalogItem α => linScore w (anonFeatures it)) (fun it => it.item_id) x y))

instance {α : Type} [LinearOrderedField α] (w : RankWeights α) :
    IsTrans (CatalogItem α) (anonRankLE w) :=
  inferInstanceAs
    (IsTrans _ (keyLE (fun it : CatalogItem α => linScore w (anonFeatures it)) (fun it => it.item_id)))

instance {α : Type} [LinearOrderedField α] (w : RankWeights α) :
    IsTotal (CatalogItem α) (anonRankLE w) :=
  inferInstanceAs
    (IsTotal _ (keyLE (fun it : CatalogItem α => linScore w (anonFeatures it)) (fun it => it.item_id)))

/-- Sort the anonymous candidates by ranking-model score. -/
def anonSortCandidates {α : Type} [LinearOrderedField α] (w : RankWeights α)
    (cands : List (CatalogItem α)) : List (CatalogItem α) :=
  List.insertionSort (anonRankLE w) cands

/-- Attach the logistic probability scores and 1-based rank positions to
the model-sorted candidate list, producing the ranked list the Re-ranking
Engine consumes. -/
noncomputable def toRankedAnon (w : RankWeights ℝ) (sorted : List (CatalogItem ℝ)) :
    List (RankedItem ℝ) :=
  sorted.enum.map
    (fun p =>
      ⟨p.2.item_id, logistic (linScore w (anonFeatures p.2)), p.1 + 1, p.2.category,
        p.2.rating_number⟩)

/-- Modelled from the spec: the full request path for an anonymous or
unknown user (spec §4.2-§4.4, §6): collaborative and content recall yield
empty sets, candidates are the popularity top-k, the ranking model
scores and sorts them, and the Re-ranking Engine runs with the empty
context (an anonymous user has no Context Store entry). -/
noncomputable def recommendAnon (w : RankWeights ℝ) (cfg : ReRankConfig)
    (catalog : List (CatalogItem ℝ)) : List (ReRankedItem ℝ) :=
  rerankItems cfg emptyContext (toRankedAnon w (anonSortCandidates w (anonCandidates catalog)))

/-! ### Matrix Factorization trainer -/

/-- The MF hyperparameters (src/unnamed/part_011 §2.1): learning rate and
the three L2 regularization strengths — `reg_user` and `reg_item` for the
factor vectors and the dedicated `reg_bias` declared for the bias
terms. -/
structure MFParams where
  lr : ℚ
  reg_user : ℚ
  reg_item : ℚ
  reg_bias : ℚ
deriving DecidableEq, Repr

/-- The slice of trainer state one SGD step touches: the global mean, the
user and item biases and the user and item factor vectors of the current
training triple. -/
structure MFState where
  global_mean : ℚ
  b_u : ℚ
  b_i : ℚ
  p_u : List ℚ
  q_i : List ℚ
deriving DecidableEq, Repr

/-- The MF prediction
`global_mean + b_u + b_i + dot(p_u, q_i)` (spec §4.1). -/
def mfPredict (st : MFState) : ℚ :=
  st.global_mean + st.b_u + st.b_i + dotL st.p_u st.q_i

/-- One SGD update exactly as the SGD-training equations of
`src/unnamed/part_011` §2.1 write it: the user bias is regularized with
`reg_user` and the item bias with `reg_item`; `reg_bias` does not appear
in any update. -/
def sgdStepDoc (h : MFParams) (st : MFState) (rating : ℚ) : MFState :=
  { st with
    b_u := st.b_u + h.lr * ((rating - mfPredict st) - h.reg_user * st.b_u)
    b_i := st.b_i + h.lr * ((rating - mfPredict st) - h.reg_item * st.b_i)
    p_u := List.zipWith (fun pu qi => pu + h.lr * ((rating - mfPredict st) * qi - h.reg_user * pu))
      st.p_u st.q_i
    q_i := List.zipWith (fun qi pu => qi + h.lr * ((rating - mfPredict st) * pu - h.reg_item * qi))
      st.q_i st.p_u }

/-- Modelled from the spec: one SGD update as spec §4.1 writes it
(`train_cf_final.py` is absent from the checkout): both biases are
regularized with the dedicated `reg_bias`, the factor vectors with
`reg_user` and `reg_item` respectively. -/
def sgdStepSpec (h : MFParams) (st : MFState) (rating : ℚ) : MFState :=
  { st with
    b_u := st.b_u + h.lr * ((rating - mfPredict st) - h.reg_bias * st.b_u)
    b_i := st.b_i + h.lr * ((rating - mfPredict st) - h.reg_bias * st.b_i)
    p_u := List.zipWith (fun pu qi => pu + h.lr * ((rating - mfPredict st) * qi - h.reg_user * pu))
      st.p_u st.q_i
    q_i := List.zipWith (fun qi pu => qi + h.lr * ((rating - mfPredict st) * pu - h.reg_item * qi))
      st.q_i st.p_u }

/-! ### Event ingestion: the recent-items context writer -/

/-- TTL of the per-user Redis context keys: 900 seconds (15 minutes),
refreshed on every write (README_EVENT_INGESTION.md, Redis Keys
Schema). -/
def ctxTTL : Nat := 900

/-- Maximum length of the per-user recent-items list
(README_EVENT_INGESTION.md, Redis Keys Schema). -/
def maxRecent : Nat := 20

/-- Modelled from the spec: the per-user recent-items key held by the
Context Store — the list of ASINs, newest first, plus the time of the
last write that set its expiry (`redis_context_service.py` is absent from
the checkout; the schema follows README_EVENT_INGESTION.md). -/
structure RecentState where
  items : List String
  last_write : Nat
deriving DecidableEq, Repr

/-- Read the recent-items list at time `t`: an absent key or a key whose
TTL has elapsed reads as empty. -/
def readRecent (st : Option RecentState) (t : Nat) : List String :=
  match st with
  | none => []
  | some s => if t < s.last_write + ctxTTL then s.items else []

/-- Modelled from the spec: the event-ingestion write
(README_EVENT_INGESTION.md): push the ASIN at the head of the (possibly
expired) list, truncate to the 20 newest entries, and refresh the 900
second TTL. -/
def ingestEvent (st : Option RecentState) (now : Nat) (asin : String) : RecentState :=
  ⟨(asin :: readRecent st now).take maxRecent, now⟩

/-- Fold a chronological list of `(timestamp, asin)` events through the
ingestion writer. -/
def runIngest (st : Option RecentState) : List (Nat × String) → Option RecentState
  | [] => st
  | e :: rest => runIngest (some (ingestEvent st e.1 e.2)) rest

/-! ### Concrete fixtures used by witnesses and counterexamples -/

/-- Fixture item id. -/
def idA : String := "a"

/-- Fixture item id. -/
def idB : String := "b"

/-- Fixture item id. -/
def idA1 : String := "a1"

/-- Fixture item id. -/
def idA2 : String := "a2"

/-- Fixture item id. -/
def idA3 : String := "a3"

/-- Fixture item id. -/
def idB1 : String := "b1"

/-- Fixture item id. -/
def idC1 : String := "c1"

/-- Fixture item id. -/
def idX : String := "X"

/-- Fixture item id. -/
def idY : String := "Y"

/-- Fixture category name. -/
def catA : String := "A"

/-- Fixture category name. -/
def catB : String := "B"

/-- Fixture category name. -/
def catC : String := "C"

/-- Fixture category name. -/
def catElec : String := "Electronics"

/-- Fixture ASIN for the event-ingestion witness. -/
def asinW : String := "B08XXXXXXX"

/-- Fixture ranked item: top-ranked, about to receive the recency
penalty. -/
def ceItemA : RankedItem ℚ :=
  { item_id := idA, rank_score := 1, rank_position := 1, category := none,
    rating_number := some 100 }

/-- Fixture ranked item: second-ranked, untouched by every rule. -/
def ceItemB : RankedItem ℚ :=
  { item_id := idB, rank_score := 9 / 10, rank_position := 2, category := none,
    rating_number := some 100 }

/-- Fixture context whose recent-items list contains `idA` only. -/
def ceCtxRecent : Context := { recent_items := [idA], recent_categories := [] }

/-- The re-ranked record of `ceItemA` after the recency penalty. -/
def ceOutA : ReRankedItem ℚ :=
  { item_id := idA, rank_score := 1, adjusted_score := 7 / 10, rank_position := 1,
    applied_rules := [recentRuleName], category := none, rating_number := some 100 }

/-- Fixture re-ranked item in category Electronics with unit score and an
empty trail. -/
def elecItem : ReRankedItem ℚ :=
  { item_id := idX, rank_score := 1, adjusted_score := 1, rank_position := 1,
    applied_rules := [], category := some catElec, rating_number := some 100 }

/-- Fixture context recording five recent Electronics interactions. -/
def elecCtx : Context := { recent_items := [], recent_categories := [(catElec, 5)] }

/-- Fixture re-ranked item of category `catA`. -/
def dItem1 : ReRankedItem ℚ :=
  { item_id := idA1, rank_score := 1, adjusted_score := 1, rank_position := 1,
    applied_rules := [], category := some catA, rating_number := some 100 }

/-- Fixture re-ranked item of category `catA`. -/
def dItem2 : ReRankedItem ℚ :=
  { item_id := idA2, rank_score := 9 / 10, adjusted_score := 9 / 10, rank_position := 2,
    applied_rules := [], category := some catA, rating_number := some 100 }

/-- Fixture ranked list with three categories (`catA` three times with
the highest scores, `catB` and `catC` once each). -/
def diversityList : List (RankedItem ℚ) :=
  [{ item_id := idA1, rank_score := 10, rank_position := 1, category := some catA,
     rating_number := some 100 },
   { item_id := idA2, rank_score := 9, rank_position := 2, category := some catA,
     rating_number := some 100 },
   { item_id := idA3, rank_score := 8, rank_position := 3, category := some catA,
     rating_number := some 100 },
   { item_id := idB1, rank_score := 1, rank_position := 4, category := some catB,
     rating_number := some 100 },
   { item_id := idC1, rank_score := 1 / 2, rank_position := 5, category := some catC,
     rating_number := some 100 }]

/-- Fixture single ranked item that carries a category. -/
def soloItem : RankedItem ℚ :=
  { item_id := idA1, rank_score := 1, rank_position := 1, category := some catA,
    rating_number := some 100 }

/-- Fixture catalog item: highest popularity, no average rating. -/
noncomputable def ceX : CatalogItem ℝ :=
  { item_id := idX, popularity := 9 / 10, avg_rating := none, category := some catA,
    rating_number := some 100, embedding := none }

/-- Fixture catalog item: lower popularity, perfect average rating. -/
noncomputable def ceY : CatalogItem ℝ :=
  { item_id := idY, popularity := 8 / 10, avg_rating := some 5, category := some catA,
    rating_number := some 100, embedding := none }

/-- Fixture ranking weights that score by the rating feature only. -/
noncomputable def ceW : RankWeights ℝ :=
  { w_mf := 0, w_pop := 0, w_rating := 1, w_content := 0, bias := 1 }

/-- Fixture all-zero ranking weights. -/
noncomputable def zeroW : RankWeights ℝ :=
  { w_mf := 0, w_pop := 0, w_rating := 0, w_content := 0, bias := 0 }

/-- Fixture MF hyperparameters with the documented default values
(lr 0.01, reg_user 0.1, reg_item 0.1, reg_bias 0.01). -/
def mfP : MFParams := { lr := 1 / 100, reg_user := 1 / 10, reg_item := 1 / 10, reg_bias := 1 / 100 }

/-- Fixture MF state with a unit user bias, zero elsewhere. -/
def mfSt : MFState := { global_mean := 0, b_u := 1, b_i := 0, p_u := [0], q_i := [0] }

/-! ### Helper lemmas about the re-ranking rules -/

lemma scaleItem_item_id {α : Type} [LinearOrderedField α] (f : α) (n : String)
    (y : ReRankedItem α) : (scaleItem f n y).item_id = y.item_id := rfl

lemma applyIntent_eq {α : Type} [LinearOrderedField α] (ctx : Context) (y : ReRankedItem α) :
    applyIntent ctx y = y ∨
      ∃ c n, y.category = some c ∧ lookupCount c ctx.recent_categories = some n ∧
        applyIntent ctx y = scaleItem (1 + min (1 / 5 : α) ((n : α) / 20)) intentRuleName y := by
  rcases hc : y.category with _ | c
  · exact Or.inl (by simp [applyIntent, hc])
  · rcases hl : lookupCount c ctx.recent_categories with _ | n
    · exact Or.inl (by simp [applyIntent, hc, hl])
    · exact Or.inr ⟨c, n, rfl, hl, by simp [applyIntent, hc, hl]⟩

lemma applyRecent_eq {α : Type} [LinearOrderedField α] (ctx : Context) (y : ReRankedItem α) :
    (y.item_id ∉ ctx.recent_items ∧ applyRecent ctx y = y) ∨
      (y.item_id ∈ ctx.recent_items ∧
        applyRecent ctx y = scaleItem ((7 : α) / 10) recentRuleName y) := by
  by_cases h : y.item_id ∈ ctx.recent_items
  · exact Or.inr ⟨h, by simp [applyRecent, h]⟩
  · exact Or.inl ⟨h, by simp [applyRecent, h]⟩

lemma divStep_eq {α : Type} [LinearOrderedField α] (w : List (ReRankedItem α))
    (y : ReRankedItem α) :
    divStep w y = y ∨ divStep w y = scaleItem ((17 : α) / 20) diversityRuleName y := by
  by_cases h : offendingB w y
  · exact Or.inr (by simp [divStep, h])
  · exact Or.inl (by simp [divStep, h])

lemma applyFloor_eq {α : Type} [LinearOrderedField α] (t : Nat) (y : ReRankedItem α) :
    applyFloor t y = y ∨ applyFloor t y = scaleItem ((9 : α) / 10) floorRuleName y := by
  rcases hr : y.rating_number with _ | r
  · exact Or.inl (by simp [applyFloor, hr])
  · by_cases h : r < t
    · exact Or.inr (by simp [applyFloor, hr, h])
    · exact Or.inl (by simp [applyFloor, hr, h])

lemma applyIntent_item_id {α : Type} [LinearOrderedField α] (ctx : Context)
    (y : ReRankedItem α) : (applyIntent ctx y).item_id = y.item_id := by
  rcases applyIntent_eq ctx y with h | ⟨c, n, _, _, h⟩ <;> rw [h] <;> rfl

lemma applyRecent_item_id {α : Type} [LinearOrderedField α] (ctx : Context)
    (y : ReRankedItem α) : (applyRecent ctx y).item_id = y.item_id := by
  rcases applyRecent_eq ctx y with ⟨_, h⟩ | ⟨_, h⟩ <;> rw [h] <;> rfl

lemma adjustItem_item_id {α : Type} [LinearOrderedField α] (ctx : Context)
    (x : RankedItem α) : (adjustItem ctx x).item_id = x.item_id := by
  unfold adjustItem
  rw [applyRecent_item_id, applyIntent_item_id]
  rfl

lemma divStep_item_id {α : Type} [LinearOrderedField α] (w : List (ReRankedItem α))
    (y : ReRankedItem α) : (divStep w y).item_id = y.item_id := by
  rcases divStep_eq w y with h | h <;> rw [h] <;> rfl

lemma applyFloor_item_id {α : Type} [LinearOrderedField α] (t : Nat)
    (y : ReRankedItem α) : (applyFloor t y).item_id = y.item_id := by
  rcases applyFloor_eq t y with h | h <;> rw [h] <;> rfl

lemma count_scaleItem {α : Type} [LinearOrderedField α] (f : α) (m n : String)
    (y : ReRankedItem α) :
    ((scaleItem f m y).applied_rules).count n =
      y.applied_rules.count n + if n = m then 1 else 0 := by
  by_cases h : n = m
  · subst h
    simp [scaleItem, List.count_append]
  · simp [scaleItem, List.count_append, List.count_singleton', h, Ne.symm h]

lemma mem_ruleAdjust {α : Type} [LinearOrderedField α] (cfg : ReRankConfig) (ctx : Context)
    (l : List (RankedItem α)) (y : ReRankedItem α) (hy : y ∈ ruleAdjust cfg ctx l) :
    ∃ x ∈ l, y = applyFloor cfg.min_rating_threshold (adjustItem ctx x) ∨
      y = applyFloor cfg.min_rating_threshold
        (scaleItem ((17 : α) / 20) diversityRuleName (adjustItem ctx x)) := by
  unfold ruleAdjust applyDiversity at hy
  rcases List.mem_map.mp hy with ⟨z, hz, rfl⟩
  rcases List.mem_append.mp hz with hz1 | hz2
  · rcases List.mem_map.mp hz1 with ⟨u, hu, rfl⟩
    have hu2 : u ∈ sortAdjusted (adjustStage ctx l) := List.mem_of_mem_take hu
    have hu3 : u ∈ adjustStage ctx l :=
      (List.Perm.mem_iff (List.perm_insertionSort rerankLE (adjustStage ctx l))).mp hu2
    rcases List.mem_map.mp hu3 with ⟨x, hx, rfl⟩
    refine ⟨x, hx, ?_⟩
    rcases divStep_eq (List.take cfg.top_n (sortAdjusted (adjustStage ctx l)))
        (adjustItem ctx x) with h | h
    · exact Or.inl (by rw [h])
    · exact Or.inr (by rw [h])
  · have hz3 : z ∈ sortAdjusted (adjustStage ctx l) := List.mem_of_mem_drop hz2
    have hz4 : z ∈ adjustStage ctx l :=
      (List.Perm.mem_iff (List.perm_insertionSort rerankLE (adjustStage ctx l))).mp hz3
    rcases List.mem_map.mp hz4 with ⟨x, hx, rfl⟩
    exact ⟨x, hx, Or.inl rfl⟩

lemma ruleAdjust_ids {α : Type} [LinearOrderedField α] (cfg : ReRankConfig) (ctx : Context)
    (l : List (RankedItem α)) :
    ((ruleAdjust cfg ctx l).map (fun y => y.item_id)).Perm
      (l.map (fun x => x.item_id)) := by
  have e1 : (ruleAdjust cfg ctx l).map (fun y => y.item_id) =
      (sortAdjusted (adjustStage ctx l)).map (fun y => y.item_id) := by
    unfold ruleAdjust
    rw [List.map_map]
    have h1 : List.map ((fun y => y.item_id) ∘ applyFloor cfg.min_rating_threshold)
        (applyDiversity cfg.top_n (adjustStage ctx l)) =
        List.map (fun y => y.item_id) (applyDiversity cfg.top_n (adjustStage ctx l)) :=
      List.map_congr_left (fun a _ => applyFloor_item_id cfg.min_rating_threshold a)
    rw [h1]
    unfold applyDiversity
    rw [List.map_append, List.map_map]
    have h2 : List.map
        ((fun y => y.item_id) ∘ divStep (List.take cfg.top_n (sortAdjusted (adjustStage ctx l))))
        (List.take cfg.top_n (sortAdjusted (adjustStage ctx l))) =
        List.map (fun y => y.item_id)
          (List.take cfg.top_n (sortAdjusted (adjustStage ctx l))) :=
      List.map_congr_left (fun a _ =>
        divStep_item_id (List.take cfg.top_n (sortAdjusted (adjustStage ctx l))) a)
    rw [h2, ← List.map_append, List.take_append_drop]
  have e2 : (adjustStage ctx l).map (fun y => y.item_id) = l.map (fun x => x.item_id) := by
    unfold adjustStage
    rw [List.map_map]
    apply List.map_congr_left
    intro a _
    exact adjustItem_item_id ctx a
  rw [e1, ← e2]
  exact (List.perm_insertionSort rerankLE (adjustStage ctx l)).map _

lemma ruleAdjust_length {α : Type} [LinearOrderedField α] (cfg : ReRankConfig) (ctx : Context)
    (l : List (RankedItem α)) : (ruleAdjust cfg ctx l).length = l.length := by
  have := (ruleAdjust_ids cfg ctx l).length_eq
  simpa using this

lemma count_applyFloor {α : Type} [LinearOrderedField α] (t : Nat) (z : ReRankedItem α)
    (n : String) (h : n ≠ floorRuleName) :
    ((applyFloor t z).applied_rules).count n = z.applied_rules.count n := by
  rcases applyFloor_eq t z with hz | hz <;> rw [hz]
  rw [count_scaleItem]
  simp [h]

lemma count_applyIntent_ne {α : Type} [LinearOrderedField α] (ctx : Context)
    (z : ReRankedItem α) (n : String) (h : n ≠ intentRuleName) :
    ((applyIntent ctx z).applied_rules).count n = z.applied_rules.count n := by
  rcases applyIntent_eq ctx z with hz | ⟨c, m, _, _, hz⟩ <;> rw [hz]
  rw [count_scaleItem]
  simp [h]

lemma count_divStep_ne {α : Type} [LinearOrderedField α] (w : List (ReRankedItem α))
    (z : ReRankedItem α) (n : String) (h : n ≠ diversityRuleName) :
    ((divStep w z).applied_rules).count n = z.applied_rules.count n := by
  rcases divStep_eq w z with hz | hz <;> rw [hz]
  rw [count_scaleItem]
  simp [h]

lemma count_adjustItem_recent {α : Type} [LinearOrderedField α] (ctx : Context)
    (x : RankedItem α) :
    ((adjustItem ctx x).applied_rules).count recentRuleName =
      if x.item_id ∈ ctx.recent_items then 1 else 0 := by
  unfold adjustItem
  have hid : (applyIntent ctx (initItem x)).item_id = x.item_id := by
    rw [applyIntent_item_id]
    rfl
  rcases applyRecent_eq ctx (applyIntent ctx (initItem x)) with ⟨hm, hz⟩ | ⟨hm, hz⟩ <;>
      rw [hz] <;> rw [hid] at hm
  · rw [if_neg hm]
    rw [count_applyIntent_ne _ _ _ (by decide)]
    rfl
  · rw [if_pos hm, count_scaleItem, if_pos rfl]
    rw [count_applyIntent_ne _ _ _ (by decide)]
    rfl

lemma mem_rerank_ruleAdjust {α : Type} [LinearOrderedField α] (cfg : ReRankConfig)
    (ctx : Context) (l : List (RankedItem α)) (y : ReRankedItem α)
    (hy : y ∈ rerankItems cfg ctx l) : y ∈ ruleAdjust cfg ctx l := by
  unfold rerankItems sortAdjusted at hy
  exact (List.perm_insertionSort rerankLE (ruleAdjust cfg ctx l)).mem_iff.mp
    (List.mem_of_mem_take hy)

lemma count_recent_output {α : Type} [LinearOrderedField α] (cfg : ReRankConfig)
    (ctx : Context) (l : List (RankedItem α)) (y : ReRankedItem α)
    (hy : y ∈ rerankItems cfg ctx l) :
    (y.applied_rules).count recentRuleName =
      if y.item_id ∈ ctx.recent_items then 1 else 0 := by
  rcases mem_ruleAdjust cfg ctx l y (mem_rerank_ruleAdjust cfg ctx l y hy) with ⟨x, hx, h | h⟩
  · rw [h, count_applyFloor _ _ _ (by decide), count_adjustItem_recent,
      applyFloor_item_id, adjustItem_item_id]
  · rw [h, count_applyFloor _ _ _ (by decide), count_scaleItem]
    rw [if_neg (by decide), count_adjustItem_recent,
      applyFloor_item_id, scaleItem_item_id, adjustItem_item_id]
    omega

lemma applyIntent_empty {α : Type} [LinearOrderedField α] (y : ReRankedItem α) :
    applyIntent emptyContext y = y := by
  rcases applyIntent_eq emptyContext y with h | ⟨c, n, _, hl, _⟩
  · exact h
  · exact absurd hl (by simp [emptyContext, lookupCount])

lemma applyRecent_empty {α : Type} [LinearOrderedField α] (y : ReRankedItem α) :
    applyRecent emptyContext y = y := by
  rcases applyRecent_eq emptyContext y with ⟨_, h⟩ | ⟨hm, _⟩
  · exact h
  · exact absurd hm (by simp [emptyContext])

lemma adjustItem_empty {α : Type} [LinearOrderedField α] (x : RankedItem α) :
    adjustItem emptyContext x = initItem x := by
  unfold adjustItem
  rw [applyIntent_empty, applyRecent_empty]

/-! ### Claim theorems: re-ranking rules -/

/-- C2: for every ranked item whose category appears in the context's
category-count map with count `n`, the intent-boost rule multiplies its
score by exactly `1 + min 0.2 (0.05 * n)` — never more than +20% — and
appends `intent_boost` to its rule trail. -/
theorem c2_intent_boost {α : Type} [LinearOrderedField α] (ctx : Context) (y : ReRankedItem α)
    (c : String) (n : Nat) (hc : y.category = some c)
    (hl : lookupCount c ctx.recent_categories = some n) :
    (applyIntent ctx y).adjusted_score = y.adjusted_score * (1 + min (1 / 5 : α) ((n : α) / 20)) ∧
    (applyIntent ctx y).applied_rules = y.applied_rules ++ [intentRuleName] := by
  constructor <;> simp [applyIntent, hc, hl, scaleItem]

/-- Witness for C2: an item of category Electronics under the context
mapping Electronics to 5 has its score multiplied by exactly 1.2 and
carries `intent_boost` in its trail. -/
theorem c2_intent_boost_witness :
    (applyIntent elecCtx elecItem).adjusted_score = elecItem.adjusted_score * (6 / 5 : ℚ) ∧
    intentRuleName ∈ (applyIntent elecCtx elecItem).applied_rules := by
  obtain ⟨h1, h2⟩ := c2_intent_boost elecCtx elecItem catElec 5 (by decide) (by decide)
  refine ⟨?_, ?_⟩
  · rw [h1]
    with_unfolding_all decide
  · rw [h2]
    decide

/-- C3: the recency-penalty rule multiplies the score of an item whose id
appears in the context's recent-items list by exactly 0.7 and appends
`recent_penalty` to its trail, and across the whole re-ranking pipeline
that rule is applied exactly once to such an item and never to any
other. -/
theorem c3_recent_penalty {α : Type} [LinearOrderedField α] (cfg : ReRankConfig) (ctx : Context)
    (l : List (RankedItem α)) (y z : ReRankedItem α) :
    (z.item_id ∈ ctx.recent_items →
      (applyRecent ctx z).adjusted_score = z.adjusted_score * ((7 : α) / 10) ∧
      (applyRecent ctx z).applied_rules = z.applied_rules ++ [recentRuleName]) ∧
    (y ∈ rerankItems cfg ctx l →
      (y.applied_rules).count recentRuleName = if y.item_id ∈ ctx.recent_items then 1 else 0) := by
  constructor
  · intro hm
    constructor <;> simp [applyRecent, hm, scaleItem]
  · intro hy
    exact count_recent_output cfg ctx l y hy

/-- Witness for C3: a recently-seen item has its score multiplied by 0.7
at the rule, and the re-ranked output of a concrete request carries the
`recent_penalty` rule exactly once on that item. -/
theorem c3_recent_penalty_witness :
    (applyRecent ceCtxRecent (initItem ceItemA)).adjusted_score =
      (initItem ceItemA).adjusted_score * ((7 : ℚ) / 10) ∧
    (ceOutA.applied_rules).count recentRuleName = 1 := by
  obtain ⟨h1, h2⟩ :=
    c3_recent_penalty defaultConfig ceCtxRecent [ceItemA, ceItemB] ceOutA (initItem ceItemA)
  refine ⟨(h1 (by decide)).1, ?_⟩
  rw [h2 (by with_unfolding_all decide)]
  decide

/-- C4: during re-ranking, an item of the current top-N window whose
category holds more than a 40% share of that window has its score
multiplied by exactly 0.85 by the diversity rule, which also appends
`diversity_penalty` to its trail. -/
theorem c4_diversity_exact {α : Type} [LinearOrderedField α] (w : List (ReRankedItem α))
    (y : ReRankedItem α) (c : String) (hc : y.category = some c)
    (hshare : 2 * w.length < 5 * catCount c w) :
    (divStep w y).adjusted_score = y.adjusted_score * ((17 : α) / 20) ∧
    (divStep w y).applied_rules = y.applied_rules ++ [diversityRuleName] := by
  have hb : offendingB w y = true := by simp [offendingB, hc, hshare]
  constructor <;> simp [divStep, hb, scaleItem]

/-- Witness for C4: with a two-item window entirely of one category, each
item receives exactly the 0.85 multiplication and the rule name. -/
theorem c4_diversity_exact_witness :
    (divStep [dItem1, dItem2] dItem1).adjusted_score = dItem1.adjusted_score * ((17 : ℚ) / 20) ∧
    (divStep [dItem1, dItem2] dItem1).applied_rules = dItem1.applied_rules ++ [diversityRuleName] :=
  c4_diversity_exact [dItem1, dItem2] dItem1 catA (by decide) (by decide)

/-- C5 counterexample: with three categories available among the ranked
candidates (`catA` three times with dominant scores, `catB`, `catC`), the
final top-N still gives `catA` a 60% share — the diversity rule penalizes
but does not cap. -/
theorem c5_diversity_cap_counterexample :
    ¬ (∀ (cfg : ReRankConfig) (ctx : Context) (l : List (RankedItem ℚ)),
        3 ≤ ((l.filterMap (fun x => x.category)).dedup).length →
        ∀ c, 5 * catCount c (rerankItems cfg ctx l) ≤ 2 * (rerankItems cfg ctx l).length) := by
  intro h
  exact absurd (h defaultConfig emptyContext diversityList (by decide) catA)
    (by with_unfolding_all decide)

/-- C5 amended: the diversity rule penalizes over-representation instead
of capping it — every window item of a category exceeding the 40% share
has its (positive) score strictly decreased and is tagged
`diversity_penalty`; no guarantee is given on the final share. -/
theorem c5_diversity_penalize_amended {α : Type} [LinearOrderedField α]
    (w : List (ReRankedItem α)) (y : ReRankedItem α) (c : String) (hc : y.category = some c)
    (hshare : 2 * w.length < 5 * catCount c w) (hpos : 0 < y.adjusted_score) :
    (divStep w y).adjusted_score < y.adjusted_score ∧
    diversityRuleName ∈ (divStep w y).applied_rules := by
  have hb : offendingB w y = true := by simp [offendingB, hc, hshare]
  have hdiv : divStep w y = scaleItem ((17 : α) / 20) diversityRuleName y := by
    simp [divStep, hb]
  rw [hdiv]
  constructor
  · exact mul_lt_of_lt_one_right hpos (by norm_num)
  · simp [scaleItem]

/-- Witness for C5 (amended): a concrete over-represented window item is
strictly demoted and tagged. -/
theorem c5_diversity_penalize_amended_witness :
    (divStep [dItem1, dItem2] dItem2).adjusted_score < dItem2.adjusted_score ∧
    diversityRuleName ∈ (divStep [dItem1, dItem2] dItem2).applied_rules :=
  c5_diversity_penalize_amended [dItem1, dItem2] dItem2 catA (by decide) (by decide)
    (by with_unfolding_all decide)

/-- C6 counterexample: with the Context Store unreachable (empty
context), a single-item request still returns a non-empty rule trail —
the context-independent diversity rule fires (a lone category is 100% of
the window), so the output is not the ranking-only list with empty
trails. -/
theorem c6_empty_trail_counterexample :
    ¬ (∀ (cfg : ReRankConfig) (l : List (RankedItem ℚ)) (y : ReRankedItem ℚ),
        y ∈ rerankWithStore cfg none l → y.applied_rules = []) := by
  intro h
  have := h defaultConfig [soloItem]
    ⟨idA1, 1, 17 / 20, 1, [diversityRuleName], some catA, some 100⟩ (by with_unfolding_all decide)
  exact absurd this (by decide)

lemma empty_context_no_context_rules {α : Type} [LinearOrderedField α] (cfg : ReRankConfig)
    (l : List (RankedItem α)) (y : ReRankedItem α)
    (hy : y ∈ rerankItems cfg emptyContext l) :
    intentRuleName ∉ y.applied_rules ∧ recentRuleName ∉ y.applied_rules := by
  rcases mem_ruleAdjust cfg emptyContext l y
      (mem_rerank_ruleAdjust cfg emptyContext l y hy) with ⟨x, hx, h | h⟩ <;>
    rw [adjustItem_empty] at h
  · have key : ∀ n : String, n ≠ floorRuleName → (y.applied_rules).count n = 0 := by
      intro n hnf
      rw [h, count_applyFloor _ _ _ hnf]
      rfl
    exact ⟨List.count_eq_zero.mp (key intentRuleName (by decide)),
      List.count_eq_zero.mp (key recentRuleName (by decide))⟩
  · have key : ∀ n : String, n ≠ floorRuleName → n ≠ diversityRuleName →
        (y.applied_rules).count n = 0 := by
      intro n hnf hnd
      rw [h, count_applyFloor _ _ _ hnf, count_scaleItem, if_neg hnd]
      rfl
    exact ⟨List.count_eq_zero.mp (key intentRuleName (by decide) (by decide)),
      List.count_eq_zero.mp (key recentRuleName (by decide) (by decide))⟩

/-- C6 amended: when the Context Store is unreachable or empty the engine
totally degrades to re-ranking under the empty context — it never errors
— and no context-dependent rule (`intent_boost`, `recent_penalty`)
appears in any item's trail; only the context-independent diversity and
popularity-floor rules may still fire. -/
theorem c6_context_fallback_amended {α : Type} [LinearOrderedField α] (cfg : ReRankConfig)
    (l : List (RankedItem α)) :
    rerankWithStore cfg none l = rerankItems cfg emptyContext l ∧
    ∀ y ∈ rerankWithStore cfg none l,
      intentRuleName ∉ y.applied_rules ∧ recentRuleName ∉ y.applied_rules :=
  ⟨rfl, fun y hy => empty_context_no_context_rules cfg l y hy⟩

/-- Witness for C6 (amended): a concrete degraded request returns the
empty-context output and its (diversity-tagged) item carries no
context-dependent rule. -/
theorem c6_context_fallback_amended_witness :
    rerankWithStore defaultConfig none [soloItem] =
      rerankItems defaultConfig emptyContext [soloItem] ∧
    intentRuleName ∉
      ((⟨idA1, 1, 17 / 20, 1, [diversityRuleName], some catA, some 100⟩ :
        ReRankedItem ℚ)).applied_rules := by
  obtain ⟨h1, h2⟩ := c6_context_fallback_amended defaultConfig [soloItem]
  exact ⟨h1, (h2 _ (by with_unfolding_all decide)).1⟩

/-- C1 amended: the rule phase of re-ranking never changes item
membership (the adjusted list carries exactly the input's item ids); the
output is sorted by adjusted score with ties broken by original rank
position and truncated to `top_n`, so its ids form a sub-multiset of the
input ids — the whole id multiset whenever at most `top_n` items go in —
and its length is `min top_n (length input)`.  An item whose score was
only decreased can move in either direction in rank position; what holds
is that it never ends up ahead of an item that was originally ranked
above it and whose score was not decreased. -/
theorem c1_rerank_invariants {α : Type} [LinearOrderedField α] (cfg : ReRankConfig)
    (ctx : Context) (l : List (RankedItem α)) :
    ((ruleAdjust cfg ctx l).map (fun y => y.item_id)).Perm (l.map (fun x => x.item_id)) ∧
    ((rerankItems cfg ctx l).map (fun y => y.item_id)).Subperm (l.map (fun x => x.item_id)) ∧
    (l.length ≤ cfg.top_n →
      ((rerankItems cfg ctx l).map (fun y => y.item_id)).Perm (l.map (fun x => x.item_id))) ∧
    (rerankItems cfg ctx l).length = min cfg.top_n l.length ∧
    List.Sorted rerankLE (rerankItems cfg ctx l) ∧
    ∀ a b : ReRankedItem α, List.Sublist [a, b] (rerankItems cfg ctx l) →
      a.adjusted_score ≤ a.rank_score → b.rank_score ≤ b.adjusted_score →
      a.rank_score ≤ b.rank_score → b.rank_position < a.rank_position → False := by
  have hperm : (sortAdjusted (ruleAdjust cfg ctx l)).Perm (ruleAdjust cfg ctx l) :=
    List.perm_insertionSort rerankLE (ruleAdjust cfg ctx l)
  have hids := ruleAdjust_ids cfg ctx l
  have hsub : List.Sublist (rerankItems cfg ctx l) (sortAdjusted (ruleAdjust cfg ctx l)) :=
    List.take_sublist cfg.top_n _
  have hsorted : List.Sorted rerankLE (rerankItems cfg ctx l) :=
    List.Pairwise.sublist hsub (List.sorted_insertionSort rerankLE (ruleAdjust cfg ctx l))
  refine ⟨hids, ?_, ?_, ?_, hsorted, ?_⟩
  · exact (hsub.map _).subperm.trans ((hperm.map _).trans hids).subperm
  · intro hlen
    have hlen2 : (sortAdjusted (ruleAdjust cfg ctx l)).length ≤ cfg.top_n := by
      rw [hperm.length_eq, ruleAdjust_length]
      exact hlen
    have he : rerankItems cfg ctx l = sortAdjusted (ruleAdjust cfg ctx l) := by
      unfold rerankItems
      exact List.take_of_length_le hlen2
    rw [he]
    exact (hperm.map _).trans hids
  · unfold rerankItems
    rw [List.length_take, hperm.length_eq, ruleAdjust_length]
  · intro a b hab h1 h2 h3 h4
    have hr : rerankLE a b := by
      have hp : List.Pairwise rerankLE [a, b] := List.Pairwise.sublist hab hsorted
      exact (List.pairwise_cons.mp hp).1 b (by simp)
    simp only [rerankLE, keyLE] at hr
    rcases hr with h5 | ⟨h5, h6⟩
    · exact absurd h5 (not_lt.mpr (h1.trans (h3.trans h2)))
    · omega

/-- C1 counterexample: re-ranking does move the rank position of an item
whose score was only decreased — the top item, penalized by the recency
rule, drops from rank position 1 to position 2 while the untouched second
item overtakes it. -/
theorem c1_rankpos_counterexample :
    ¬ (∀ (cfg : ReRankConfig) (ctx : Context) (l : List (RankedItem ℚ)) (y : ReRankedItem ℚ)
        (i : Nat), (rerankItems cfg ctx l)[i]? = some y →
        y.adjusted_score ≤ y.rank_score → intentRuleName ∉ y.applied_rules →
        i + 1 ≤ y.rank_position) := by
  intro h
  have := h defaultConfig ceCtxRecent [ceItemA, ceItemB] ceOutA 1
    (by with_unfolding_all decide) (by with_unfolding_all decide) (by decide)
  exact absurd this (by decide)

/-- Witness for C1 (amended): on a concrete two-item request the output
ids are a permutation of the input ids and the output length is the
minimum of `top_n` and the input length. -/
theorem c1_rerank_invariants_witness :
    ((rerankItems defaultConfig ceCtxRecent [ceItemA, ceItemB]).map (fun y => y.item_id)).Perm
      ([ceItemA, ceItemB].map (fun x => x.item_id)) ∧
    (rerankItems defaultConfig ceCtxRecent [ceItemA, ceItemB]).length =
      min defaultConfig.top_n ([ceItemA, ceItemB] : List (RankedItem ℚ)).length := by
  obtain ⟨-, -, h3, h4, -, -⟩ :=
    c1_rerank_invariants defaultConfig ceCtxRecent [ceItemA, ceItemB]
  exact ⟨h3 (by decide), h4⟩

/-! ### Claim theorems: MF trainer, event ingestion, ranking -/

/-- C8: at the documented hyperparameters (lr 0.01, reg_user 0.1,
reg_bias 0.01) and the concrete training example (state with user bias 1,
everything else 0, rating 2, so error 1), the SGD update written in the
repository document yields user bias 1.009 — it regularizes the bias with
`reg_user` — while the spec's dedicated `reg_bias` update yields 1.0099;
the two differ, and `reg_bias` is unused by the documented equations. -/
theorem c8_bias_reg_divergence :
    (sgdStepDoc mfP mfSt 2).b_u = 1009 / 1000 ∧
    (sgdStepSpec mfP mfSt 2).b_u = 10099 / 10000 ∧
    (sgdStepDoc mfP mfSt 2).b_u ≠ (sgdStepSpec mfP mfSt 2).b_u := by
  have h1 : (sgdStepDoc mfP mfSt 2).b_u = 1009 / 1000 := by
    simp [sgdStepDoc, mfPredict, mfP, mfSt, dotL]
    norm_num
  have h2 : (sgdStepSpec mfP mfSt 2).b_u = 10099 / 10000 := by
    simp [sgdStepSpec, mfPredict, mfP, mfSt, dotL]
    norm_num
  refine ⟨h1, h2, ?_⟩
  rw [h1, h2]
  norm_num

lemma ingestEvent_items_le (st : Option RecentState) (now : Nat) (asin : String) :
    (ingestEvent st now asin).items.length ≤ 20 :=
  List.length_take_le maxRecent _

lemma runIngest_bound (events : List (Nat × String)) :
    ∀ st : Option RecentState, (∀ s : RecentState, st = some s → s.items.length ≤ 20) →
      ∀ s : RecentState, runIngest st events = some s → s.items.length ≤ 20 := by
  induction events with
  | nil => exact fun st hbound s hs => hbound s hs
  | cons e rest ih =>
    intro st hbound s hs
    refine ih (some (ingestEvent st e.1 e.2)) ?_ s hs
    intro s2 hs2
    cases hs2
    exact ingestEvent_items_le st e.1 e.2

/-- C10: the event-ingestion writer keeps at most 20 recent item ids per
user (preserved across any chronological event sequence), the newest id
sits at the head of the list, and the key expires 900 seconds after the
last write — a read at or past that point returns the empty context. -/
theorem c10_recent_context_bounds (st : Option RecentState) (now : Nat) (asin : String)
    (events : List (Nat × String)) :
    (ingestEvent st now asin).items.length ≤ 20 ∧
    (ingestEvent st now asin).items.head? = some asin ∧
    ((∀ s : RecentState, st = some s → s.items.length ≤ 20) →
      ∀ s : RecentState, runIngest st events = some s → s.items.length ≤ 20) ∧
    (∀ (s : RecentState) (t : Nat), s.last_write + ctxTTL ≤ t → readRecent (some s) t = []) ∧
    (∀ t : Nat, (ingestEvent st now asin).last_write + ctxTTL ≤ t →
      readRecent (some (ingestEvent st now asin)) t = []) := by
  have hexp : ∀ (s : RecentState) (t : Nat), s.last_write + ctxTTL ≤ t →
      readRecent (some s) t = [] := by
    intro s t ht
    simp only [readRecent]
    rw [if_neg (by omega)]
  refine ⟨ingestEvent_items_le st now asin, rfl, ?_, hexp, ?_⟩
  · exact runIngest_bound events st
  · exact fun t ht => hexp _ t ht

/-- Witness for C10: ingesting one event into an absent key yields a list
of length at most 20 headed by the new ASIN, and a read 900 seconds later
is empty. -/
theorem c10_recent_context_bounds_witness :
    (ingestEvent none 0 asinW).items.length ≤ 20 ∧
    (ingestEvent none 0 asinW).items.head? = some asinW ∧
    readRecent (some (ingestEvent none 0 asinW)) 900 = [] := by
  obtain ⟨h1, h2, h3, h4, h5⟩ := c10_recent_context_bounds none 0 asinW []
  exact ⟨h1, h2, h5 900 (by decide)⟩

lemma logistic_strictMono : StrictMono logistic := by
  intro a b hab
  unfold logistic
  exact one_div_lt_one_div_of_lt (by positivity)
    (add_lt_add_left (Real.exp_lt_exp.mpr (neg_lt_neg hab)) 1)

/-- C9: the ranking operation is a pure, deterministic function of the
candidate feature vectors and the model weights — two runs on the same
inputs are definitionally the same list — and its output is a permutation
of the candidates sorted descending by the logistic probability
`1 / (1 + exp (-(w · x + b)))` with ties broken by the stable secondary
key item id. -/
theorem c9_ranking_deterministic_sorted (w : RankWeights ℝ) (cands : List (Candidate ℝ)) :
    rankCandidates w cands = rankCandidates w cands ∧
    (rankCandidates w cands).Perm cands ∧
    List.Pairwise
      (fun x y : Candidate ℝ =>
        logistic (linScore w y.feats) < logistic (linScore w x.feats) ∨
          (logistic (linScore w x.feats) = logistic (linScore w y.feats) ∧
            x.item_id ≤ y.item_id))
      (rankCandidates w cands) := by
  refine ⟨rfl, List.perm_insertionSort _ _, ?_⟩
  have hs : List.Pairwise (rankLE w) (rankCandidates w cands) :=
    List.sorted_insertionSort (rankLE w) cands
  refine hs.imp ?_
  intro a b hab
  rcases hab with h | ⟨h, h2⟩
  · exact Or.inl (logistic_strictMono h)
  · exact Or.inr ⟨congrArg logistic h, h2⟩

/-! ### Claim theorems: the anonymous (cold-start) request path -/

lemma dedupItemsAux_eq {α : Type} (l : List (CatalogItem α)) :
    ∀ seen : List String, (l.map (fun it => it.item_id)).Nodup →
      (∀ x ∈ l, x.item_id ∉ seen) → dedupItemsAux seen l = l := by
  induction l with
  | nil =>
    intro seen _ _
    rfl
  | cons x rest ih =>
    intro seen hnd hseen
    have hnd2 : x.item_id ∉ rest.map (fun it => it.item_id) ∧
        (rest.map (fun it => it.item_id)).Nodup := by
      rw [List.map_cons, List.nodup_cons] at hnd
      exact hnd
    simp only [dedupItemsAux]
    rw [if_neg (hseen x (List.mem_cons_self x rest))]
    congr 1
    refine ih (x.item_id :: seen) hnd2.2 ?_
    intro z hz
    simp only [List.mem_cons]
    push_neg
    refine ⟨?_, hseen z (List.mem_cons_of_mem x hz)⟩
    intro he
    exact hnd2.1 (he ▸ List.mem_map_of_mem (fun it => it.item_id) hz)

lemma popularityRecall_nodup {α : Type} [LinearOrderedField α] (k : Nat)
    (catalog : List (CatalogItem α)) (h : (catalog.map (fun it => it.item_id)).Nodup) :
    ((popularityRecall k catalog).map (fun it => it.item_id)).Nodup := by
  unfold popularityRecall
  have hp : ((List.insertionSort popLE catalog).map (fun it => it.item_id)).Nodup :=
    ((List.perm_insertionSort popLE catalog).map (fun it => it.item_id)).nodup_iff.mpr h
  exact List.Nodup.sublist ((List.take_sublist k _).map _) hp

/-- C7 amended: an anonymous or unknown user never causes an error — the
collaborative and content sources yield empty sets, the candidates are
exactly the deduplicated popularity top-k (the popularity top-k itself
when catalog ids are distinct), the output is those candidates re-scored
by the ranking model and re-ranked under the empty context, and no
context-dependent rule appears in any item's trail.  The output need not
equal the popularity top-N: the ranking model may reorder candidates and
the context-independent rules may fire. -/
theorem c7_cold_start_amended (w : RankWeights ℝ) (cfg : ReRankConfig)
    (catalog : List (CatalogItem ℝ)) (k : Nat) (uTable : List (String × List ℝ × ℝ)) :
    collabRecall k none uTable = [] ∧
    contentRecall k ([] : List (List ℝ)) catalog = [] ∧
    anonCandidates catalog = dedupItems (popularityRecall 50 catalog) ∧
    ((catalog.map (fun it => it.item_id)).Nodup →
      anonCandidates catalog = popularityRecall 50 catalog) ∧
    recommendAnon w cfg catalog =
      rerankItems cfg emptyContext
        (toRankedAnon w (anonSortCandidates w (anonCandidates catalog))) ∧
    ∀ y ∈ recommendAnon w cfg catalog,
      intentRuleName ∉ y.applied_rules ∧ recentRuleName ∉ y.applied_rules := by
  refine ⟨rfl, rfl, rfl, ?_, rfl, ?_⟩
  · intro hnd
    unfold anonCandidates dedupItems
    refine dedupItemsAux_eq (popularityRecall 50 catalog) []
      (popularityRecall_nodup 50 catalog hnd) ?_
    intro x hx
    simp
  · intro y hy
    exact empty_context_no_context_rules cfg _ y hy

/-- Witness for C7 (amended): the degenerate anonymous request over the
empty catalog returns the empty list with no error, and the candidate set
equals the popularity top-k. -/
theorem c7_cold_start_amended_witness :
    collabRecall 100 none ([] : List (String × List ℝ × ℝ)) = [] ∧
    anonCandidates ([] : List (CatalogItem ℝ)) = popularityRecall 50 [] ∧
    recommendAnon zeroW defaultConfig [] = [] := by
  obtain ⟨h1, h2, h3, h4, h5, h6⟩ := c7_cold_start_amended zeroW defaultConfig [] 100 []
  exact ⟨h1, h4 (by simp), rfl⟩

lemma c7lin_X : linScore ceW (anonFeatures ceX) = 1 := by
  simp [linScore, anonFeatures, ratingScore, ceW, ceX]

lemma c7lin_Y : linScore ceW (anonFeatures ceY) = 2 := by
  simp [linScore, anonFeatures, ratingScore, ceW, ceY]
  norm_num

lemma c7log_lt : logistic 1 < logistic 2 := logistic_strictMono (by norm_num)

lemma c7pop_sort : List.insertionSort popLE [ceX, ceY] = [ceX, ceY] := by
  have h : popLE ceX ceY := Or.inl (by simp [ceX, ceY]; norm_num)
  show List.orderedInsert popLE ceX [ceY] = [ceX, ceY]
  exact List.orderedInsert_of_le popLE [] h

lemma c7pop_recall (k : Nat) (hk : 2 ≤ k) : popularityRecall k [ceX, ceY] = [ceX, ceY] := by
  unfold popularityRecall
  rw [c7pop_sort]
  exact List.take_of_length_le (by simpa)

lemma c7cands : anonCandidates [ceX, ceY] = [ceX, ceY] := by
  unfold anonCandidates dedupItems
  rw [c7pop_recall 50 (by norm_num)]
  refine dedupItemsAux_eq [ceX, ceY] [] ?_ ?_
  · simp [ceX, ceY, idX, idY]
  · intro x hx
    simp

lemma c7rank_sort : anonSortCandidates ceW [ceX, ceY] = [ceY, ceX] := by
  have h : ¬ anonRankLE ceW ceX ceY := by
    simp only [anonRankLE, keyLE, c7lin_X, c7lin_Y]
    refine not_or.mpr ⟨by norm_num, ?_⟩
    rintro ⟨h12, -⟩
    norm_num at h12
  show List.orderedInsert (anonRankLE ceW) ceX [ceY] = [ceY, ceX]
  simp only [List.orderedInsert]
  rw [if_neg h]

lemma c7ranked : toRankedAnon ceW [ceY, ceX] =
    [⟨idY, logistic 2, 1, some catA, some 100⟩,
     ⟨idX, logistic 1, 2, some catA, some 100⟩] := by
  simp [toRankedAnon, List.enum, List.enumFrom, ceX, ceY]
  exact ⟨congrArg logistic c7lin_Y, congrArg logistic c7lin_X⟩

lemma c7final : recommendAnon ceW defaultConfig [ceX, ceY] =
    [⟨idY, logistic 2, logistic 2 * (17 / 20), 1, [diversityRuleName], some catA, some 100⟩,
     ⟨idX, logistic 1, logistic 1 * (17 / 20), 2, [diversityRuleName], some catA,
       some 100⟩] := by
  unfold recommendAnon
  rw [c7cands, c7rank_sort, c7ranked]
  have hAdj : adjustStage emptyContext
      ([⟨idY, logistic 2, 1, some catA, some 100⟩,
        ⟨idX, logistic 1, 2, some catA, some 100⟩] : List (RankedItem ℝ)) =
      [⟨idY, logistic 2, logistic 2, 1, [], some catA, some 100⟩,
       ⟨idX, logistic 1, logistic 1, 2, [], some catA, some 100⟩] := rfl
  have hsort1 : sortAdjusted
      ([⟨idY, logistic 2, logistic 2, 1, [], some catA, some 100⟩,
        ⟨idX, logistic 1, logistic 1, 2, [], some catA, some 100⟩] :
        List (ReRankedItem ℝ)) =
      [⟨idY, logistic 2, logistic 2, 1, [], some catA, some 100⟩,
       ⟨idX, logistic 1, logistic 1, 2, [], some catA, some 100⟩] :=
    List.orderedInsert_of_le rerankLE [] (Or.inl c7log_lt)
  unfold rerankItems ruleAdjust applyDiversity
  rw [hAdj, hsort1]
  have hmid : ((([⟨idY, logistic 2, logistic 2, 1, [], some catA, some 100⟩,
        ⟨idX, logistic 1, logistic 1, 2, [], some catA, some 100⟩] :
        List (ReRankedItem ℝ)).take defaultConfig.top_n).map
          (divStep (([⟨idY, logistic 2, logistic 2, 1, [], some catA, some 100⟩,
            ⟨idX, logistic 1, logistic 1, 2, [], some catA, some 100⟩] :
            List (ReRankedItem ℝ)).take defaultConfig.top_n)) ++
        ([⟨idY, logistic 2, logistic 2, 1, [], some catA, some 100⟩,
          ⟨idX, logistic 1, logistic 1, 2, [], some catA, some 100⟩] :
          List (ReRankedItem ℝ)).drop defaultConfig.top_n).map
        (applyFloor defaultConfig.min_rating_threshold) =
      [⟨idY, logistic 2, logistic 2 * (17 / 20), 1, [diversityRuleName], some catA, some 100⟩,
       ⟨idX, logistic 1, logistic 1 * (17 / 20), 2, [diversityRuleName], some catA,
         some 100⟩] := rfl
  rw [hmid]
  have hsort2 : sortAdjusted
      ([⟨idY, logistic 2, logistic 2 * (17 / 20), 1, [diversityRuleName], some catA, some 100⟩,
        ⟨idX, logistic 1, logistic 1 * (17 / 20), 2, [diversityRuleName], some catA,
          some 100⟩] : List (ReRankedItem ℝ)) =
      [⟨idY, logistic 2, logistic 2 * (17 / 20), 1, [diversityRuleName], some catA, some 100⟩,
       ⟨idX, logistic 1, logistic 1 * (17 / 20), 2, [diversityRuleName], some catA,
         some 100⟩] :=
    List.orderedInsert_of_le rerankLE []
      (Or.inl (mul_lt_mul_of_pos_right c7log_lt (by norm_num)))
  rw [hsort2]
  rfl

/-- C7 counterexample: for the anonymous user over a two-item catalog the
final recommendations differ from the popularity top-N — the ranking
model (scoring by the rating feature) reverses the popularity order — so
the cold-start output does not equal the popularity top-N (and both items
carry the diversity penalty in their trails). -/
theorem c7_cold_start_counterexample :
    ¬ (∀ (w : RankWeights ℝ) (cfg : ReRankConfig) (catalog : List (CatalogItem ℝ)),
        (recommendAnon w cfg catalog).map (fun y => y.item_id) =
          (popularityRecall cfg.top_n catalog).map (fun it => it.item_id) ∧
        ∀ y ∈ recommendAnon w cfg catalog, y.applied_rules = []) := by
  intro h
  obtain ⟨h1, h2⟩ := h ceW defaultConfig [ceX, ceY]
  rw [c7final, show defaultConfig.top_n = 20 from rfl, c7pop_recall 20 (by norm_num)] at h1
  exact absurd h1 (by decide)
